import Mathlib

/-!
Verification of the streaming-protocol pipeline of the Hustle Incognito
client (src/client.ts, src/types.ts).

The TypeScript code is shallowly embedded: JavaScript runtime values that
flow through the pipeline are modelled by the inductive type JVal, the
per-line classifier, chunk processor, response aggregator and request
builder are translated into executable Lean functions, and the network
transport is modelled by an explicit behaviour datum consumed at most once
per call.  JSON.parse of the host runtime is modelled by an executable
recursive-descent parser over the JSON grammar (numbers are represented
as rationals; host floating point rounding is not modelled, and no claim
below depends on it).
-/

namespace Hustle

/-- JavaScript runtime values as they occur in the pipeline: the JSON
value universe plus the distinguished undefined value produced by missing
property accesses. -/
inductive JVal where
  | undefined
  | null
  | bool (b : Bool)
  | num (q : Rat)
  | str (s : String)
  | arr (elems : List JVal)
  | obj (fields : List (String × JVal))

/-- JavaScript truthiness of a value. -/
def jvTruthy : JVal → Bool
  | .undefined => false
  | .null => false
  | .bool b => b
  | .num q => q != 0
  | .str s => s != ""
  | .arr _ => true
  | .obj _ => true

/-- Whether the JavaScript typeof operator yields the string object. -/
def isObjType : JVal → Bool
  | .null => true
  | .arr _ => true
  | .obj _ => true
  | _ => false

/-- Key membership as tested by the JavaScript in operator on parsed JSON
data: only object records carry string keys. -/
def hasKey : JVal → String → Bool
  | .obj fields, k => fields.any (fun p => p.1 == k)
  | _, _ => false

/-- Last binding of a key in a field list; later duplicate keys win, as in
JavaScript object construction. -/
def lookupLast (fields : List (String × JVal)) (k : String) : Option JVal :=
  (fields.filter (fun p => p.1 == k)).getLast? |>.map (·.2)

/-- Optional-chaining property access v?.k: undefined on missing keys and
on every non-object receiver. -/
def jsGet (v : JVal) (k : String) : JVal :=
  match v with
  | .obj fields =>
    match lookupLast fields k with
    | some w => w
    | none => .undefined
  | _ => .undefined

/-- JS String.prototype.charAt: the character at the index as a
one-character string, or the empty string when out of range. -/
def charAt (s : String) (i : Nat) : String :=
  match s.toList.drop i with
  | [] => ""
  | c :: _ => String.mk [c]

/-- JS String.prototype.substring(i): the substring from index i to the
end of the string. -/
def substringFrom (s : String) (i : Nat) : String :=
  String.mk (s.toList.drop i)

/-- JSON insignificant whitespace characters. -/
def jsonWs (c : Char) : Bool :=
  c == ' ' || c == '\t' || c == '\n' || c == '\r'

/-- Drop leading JSON whitespace. -/
def skipWs : List Char → List Char
  | [] => []
  | c :: rest => if jsonWs c then skipWs rest else c :: rest

/-- Longest leading run of decimal digits, and the remainder. -/
def takeDigits : List Char → List Char × List Char
  | [] => ([], [])
  | c :: rest =>
    if c.isDigit then
      let p := takeDigits rest
      (c :: p.1, p.2)
    else ([], c :: rest)

/-- Decimal digits to a natural number. -/
def digitsToNat (ds : List Char) : Nat :=
  ds.foldl (fun n c => n * 10 + (c.toNat - 48)) 0

/-- Value of one hexadecimal digit. -/
def hexVal (c : Char) : Option Nat :=
  if c.isDigit then some (c.toNat - 48)
  else if 'a' ≤ c && c ≤ 'f' then some (c.toNat - 87)
  else if 'A' ≤ c && c ≤ 'F' then some (c.toNat - 55)
  else none

/-- Body of a JSON string literal after the opening quote: returns the
decoded string and the input after the closing quote. -/
def parseStrBody : List Char → List Char → Option (String × List Char)
  | [], _ => none
  | '"' :: rest, acc => some (String.mk acc.reverse, rest)
  | '\\' :: rest, acc =>
    match rest with
    | [] => none
    | e :: rest2 =>
      match e with
      | '"' => parseStrBody rest2 ('"' :: acc)
      | '\\' => parseStrBody rest2 ('\\' :: acc)
      | '/' => parseStrBody rest2 ('/' :: acc)
      | 'b' => parseStrBody rest2 (Char.ofNat 8 :: acc)
      | 'f' => parseStrBody rest2 (Char.ofNat 12 :: acc)
      | 'n' => parseStrBody rest2 ('\n' :: acc)
      | 'r' => parseStrBody rest2 (Char.ofNat 13 :: acc)
      | 't' => parseStrBody rest2 ('\t' :: acc)
      | 'u' =>
        match rest2 with
        | h1 :: h2 :: h3 :: h4 :: rest3 =>
          match hexVal h1, hexVal h2, hexVal h3, hexVal h4 with
          | some a, some b, some c, some d =>
            parseStrBody rest3 (Char.ofNat (((a * 16 + b) * 16 + c) * 16 + d) :: acc)
          | _, _, _, _ => none
        | _ => none
      | _ => none
  | c :: rest, acc =>
    if c.toNat < 32 then none else parseStrBody rest (c :: acc)

/-- Optional fraction part of a JSON number: its digits (empty when there
is no fraction) and the remainder; fails on a dot without digits. -/
def parseFrac : List Char → Option (List Char × List Char)
  | '.' :: rest =>
    let p := takeDigits rest
    if p.1.isEmpty then none else some (p.1, p.2)
  | cs => some ([], cs)

/-- Optional exponent part of a JSON number: the signed exponent (zero
when there is no exponent marker) and the remainder. -/
def parseExp : List Char → Option (Int × List Char)
  | [] => some (0, [])
  | c :: rest =>
    if c == 'e' || c == 'E' then
      let sgnRest : Int × List Char :=
        match rest with
        | '+' :: r => (1, r)
        | '-' :: r => (-1, r)
        | r => (1, r)
      let p := takeDigits sgnRest.2
      if p.1.isEmpty then none else some (sgnRest.1 * (digitsToNat p.1 : Int), p.2)
    else some (0, c :: rest)

/-- Ten to an integer power, as a rational. -/
def pow10 (e : Int) : Rat :=
  if 0 ≤ e then ((10 : Rat) ^ e.toNat) else 1 / ((10 : Rat) ^ (-e).toNat)

/-- A JSON number literal: grammar-checked sign, integer part without
leading zeros, optional fraction and exponent. -/
def parseNumber (cs : List Char) : Option (Rat × List Char) :=
  let signBody : Bool × List Char :=
    match cs with
    | '-' :: rest => (true, rest)
    | _ => (false, cs)
  match signBody.2 with
  | [] => none
  | c :: _ =>
    if !c.isDigit then none
    else
      let ip := takeDigits signBody.2
      if ip.1.length > 1 && ip.1.headD '0' == '0' then none
      else
        match parseFrac ip.2 with
        | none => none
        | some fp =>
          match parseExp fp.2 with
          | none => none
          | some ep =>
            let mant : Nat := digitsToNat (ip.1 ++ fp.1)
            let base : Rat := if signBody.1 then -(mant : Rat) else (mant : Rat)
            some (base / pow10 (fp.1.length : Int) * pow10 ep.1, ep.2)

/-- Opening brace character. -/
def lbrace : Char := Char.ofNat 123

/-- Closing brace character. -/
def rbrace : Char := Char.ofNat 125

mutual

/-- One JSON value, fuel-indexed recursive descent. -/
def parseVal (fuel : Nat) (cs : List Char) : Option (JVal × List Char) :=
  match fuel with
  | 0 => none
  | f + 1 =>
    match skipWs cs with
    | [] => none
    | c :: rest =>
      if c == lbrace then
        match skipWs rest with
        | [] => none
        | c2 :: rem2 =>
          if c2 == rbrace then some (.obj [], rem2)
          else
            match parseMembers f (c2 :: rem2) with
            | some p => some (.obj p.1, p.2)
            | none => none
      else if c == '[' then
        match skipWs rest with
        | ']' :: rem => some (.arr [], rem)
        | cs2 =>
          match parseElems f cs2 with
          | some p => some (.arr p.1, p.2)
          | none => none
      else if c == '"' then
        match parseStrBody rest [] with
        | some p => some (.str p.1, p.2)
        | none => none
      else if c == 'n' then
        match rest with
        | 'u' :: 'l' :: 'l' :: rem => some (.null, rem)
        | _ => none
      else if c == 't' then
        match rest with
        | 'r' :: 'u' :: 'e' :: rem => some (.bool true, rem)
        | _ => none
      else if c == 'f' then
        match rest with
        | 'a' :: 'l' :: 's' :: 'e' :: rem => some (.bool false, rem)
        | _ => none
      else if c == '-' || c.isDigit then
        match parseNumber (c :: rest) with
        | some p => some (.num p.1, p.2)
        | none => none
      else none

/-- Comma-separated array elements up to the closing bracket. -/
def parseElems (fuel : Nat) (cs : List Char) : Option (List JVal × List Char) :=
  match fuel with
  | 0 => none
  | f + 1 =>
    match parseVal f cs with
    | none => none
    | some vp =>
      match skipWs vp.2 with
      | ',' :: rem2 =>
        match parseElems f rem2 with
        | some p => some (vp.1 :: p.1, p.2)
        | none => none
      | ']' :: rem2 => some ([vp.1], rem2)
      | _ => none

/-- Comma-separated object members up to the closing brace. -/
def parseMembers (fuel : Nat) (cs : List Char) : Option (List (String × JVal) × List Char) :=
  match fuel with
  | 0 => none
  | f + 1 =>
    match skipWs cs with
    | '"' :: rest =>
      match parseStrBody rest [] with
      | none => none
      | some kp =>
        match skipWs kp.2 with
        | ':' :: rem2 =>
          match parseVal f rem2 with
          | none => none
          | some vp =>
            match skipWs vp.2 with
            | [] => none
            | c :: rem4 =>
              if c == ',' then
                match parseMembers f rem4 with
                | some p => some ((kp.1, vp.1) :: p.1, p.2)
                | none => none
              else if c == rbrace then some ([(kp.1, vp.1)], rem4)
              else none
        | _ => none
    | _ => none

end

/-- Model of the host JSON.parse: some parsed value on valid JSON input
with nothing but whitespace after it, none on invalid input. -/
def jsonParse (s : String) : Option JVal :=
  match parseVal (2 * s.length + 2) s.toList with
  | some p => if (skipWs p.2).isEmpty then some p.1 else none
  | none => none

/-- A raw stream chunk (types.ts RawChunk): the leading character of the
source line as a string (named pfx here, prefix in the source), the
best-effort parsed payload, and the original line. -/
structure RawChunk where
  pfx : String
  data : JVal
  raw : String

/-- Per-line classification in rawStream (client.ts lines 300 to 313):
prefix is the character at index 0, the payload is the substring from
index 2, parsed as JSON when valid and kept verbatim otherwise. -/
def classifyLine (line : String) : RawChunk :=
  let payload := substringFrom line 2
  match jsonParse payload with
  | some v => ⟨charAt line 0, v, line⟩
  | none => ⟨charAt line 0, JVal.str payload, line⟩

/-- JavaScript whitespace as trimmed by String.prototype.trim (the
common code points; exotic unicode spaces are not modelled). -/
def jsIsWs (c : Char) : Bool :=
  c == ' ' || c == '\t' || c == '\n' || c == Char.ofNat 13 ||
  c == Char.ofNat 11 || c == Char.ofNat 12 || c == Char.ofNat 160 ||
  c == Char.ofNat 65279

/-- Whether line.trim() is empty, the guard skipping a line in rawStream
(client.ts line 297): true exactly when every character is whitespace. -/
def isBlank (line : String) : Bool :=
  line.toList.all jsIsWs

/-- Split on the newline character, as JS String.prototype.split with a
one-character separator: segments between newlines, in order, with empty
segments kept. -/
def splitNlChars : List Char → List Char → List String
  | [], acc => [String.mk acc.reverse]
  | c :: rest, acc =>
    if c == '\n' then String.mk acc.reverse :: splitNlChars rest []
    else splitNlChars rest (c :: acc)

/-- JS text.split of one decoded read on newline. -/
def splitNl (text : String) : List String :=
  splitNlChars text.toList []

/-- The per-read line decoding in rawStream (client.ts lines 294 to 297):
split the decoded text of one read on newline and drop whitespace-only
segments. -/
def linesOf (text : String) : List String :=
  (splitNl text).filter (fun l => !(isBlank l))

/-- The read loop of rawStream at the line level: every read is decoded
and split independently of the others; nothing is carried across reads. -/
def streamLines : List String → List String
  | [] => []
  | text :: rest => linesOf text ++ streamLines rest

/-- The inner for loop of rawStream over the lines of one read: skip
whitespace-only lines and classify the rest, one chunk per line. -/
def classifyLines : List String → List RawChunk
  | [] => []
  | l :: rest =>
    if !(isBlank l) then classifyLine l :: classifyLines rest
    else classifyLines rest

/-- Chunks produced from the decoded text of one read. -/
def chunksOfRead (text : String) : List RawChunk :=
  classifyLines (splitNl text)

/-- Chunks produced by the whole read loop. -/
def streamChunksOfReads : List String → List RawChunk
  | [] => []
  | t :: rest => chunksOfRead t ++ streamChunksOfReads rest

/-- Errors thrown by the client: configuration errors from the
constructor and the request builder, HTTP status errors and network
failures from the transport. -/
inductive SdkError where
  | config (msg : String)
  | http (status : Nat) (statusText : String)
  | network (msg : String)

/-- The message carried by the thrown Error object. -/
def errMessage : SdkError → String
  | .config m => m
  | .http st stx => "HTTP error: " ++ toString st ++ " " ++ stx
  | .network m => m

/-- JavaScript String(error) on an Error object. -/
def errToString (e : SdkError) : String :=
  "Error: " ++ errMessage e

/-- The chunk yielded on the failure path of rawStream (client.ts line
322) before the error is rethrown. -/
def errorChunk (e : SdkError) : RawChunk :=
  ⟨"error", JVal.str (errToString e), errToString e⟩

/-- Constructor options (types.ts HustleIncognitoClientOptions); apiKey
is optional here because the constructor guards a missing value. -/
structure ClientOptions where
  apiKey : Option String := none
  hustleApiUrl : Option String := none
  userKey : Option String := none
  userSecret : Option String := none
  debug : Option Bool := none

/-- Immutable per-instance state fixed by the constructor. -/
structure ClientState where
  apiKey : String
  baseUrl : String
  userKey : Option String := none
  userSecret : Option String := none
  debug : Bool := false

/-- Default production endpoint (client.ts API_ENDPOINTS.PRODUCTION). -/
def PRODUCTION_URL : String := "https://agenthustle.ai"

/-- JavaScript a or-else b on an optional string: the default replaces
both a missing and an empty (falsy) string. -/
def jsOrStr (o : Option String) (dflt : String) : String :=
  match o with
  | some s => if s == "" then dflt else s
  | none => dflt

/-- The constructor (client.ts lines 39 to 55): a missing or empty apiKey
throws; otherwise the configuration is frozen into the instance. -/
def mkClient (o : ClientOptions) : Except SdkError ClientState :=
  match o.apiKey with
  | none => .error (.config "API key is required.")
  | some k =>
    if k == "" then .error (.config "API key is required.")
    else .ok
      { apiKey := k
        baseUrl := jsOrStr o.hustleApiUrl PRODUCTION_URL
        userKey := o.userKey
        userSecret := o.userSecret
        debug := o.debug.getD false }

/-- A chat message (types.ts ChatMessage); the pipeline never inspects
its fields, it only carries messages through. -/
structure ChatMessage where
  role : String
  content : String
  name : Option String := none

/-- Default slippage settings (client.ts line 351). -/
def defaultSlippage : List (String × Rat) :=
  [("lpSlippage", 5), ("swapSlippage", 5), ("pumpSlippage", 5)]

/-- Options accepted by rawStream and chatStream (types.ts
StreamOptions).  currentPath distinguishes missing (none), explicit null
(some none) and a string (some (some s)). -/
structure StreamOptions where
  vaultId : String
  messages : List ChatMessage
  userApiKey : Option String := none
  externalWalletAddress : Option String := none
  slippageSettings : Option (List (String × Rat)) := none
  safeMode : Option Bool := none
  currentPath : Option (Option String) := none
  processChunks : Option Bool := none

/-- The outgoing request body (types.ts HustleRequest). -/
structure HustleRequest where
  id : String
  apiKey : String
  messages : List ChatMessage
  vaultId : String
  externalWalletAddress : String
  slippageSettings : List (String × Rat)
  safeMode : Bool
  currentPath : Option String
  attachments : List JVal

/-- Key resolution in prepareRequestBody (client.ts line 340): the
per-call userApiKey or-else the client key, where an empty per-call key
is falsy and falls through. -/
def resolveApiKey (clientKey : String) (userApiKey : Option String) : String :=
  match userApiKey with
  | some s => if s == "" then clientKey else s
  | none => clientKey

/-- JavaScript currentPath or-else null (client.ts line 353): missing,
null and the empty string all become null. -/
def jsCurrentPath (o : Option (Option String)) : Option String :=
  match o with
  | some (some s) => if s == "" then none else some s
  | _ => none

/-- prepareRequestBody (client.ts lines 331 to 356). -/
def prepareRequestBody (c : ClientState) (o : StreamOptions) : Except SdkError HustleRequest :=
  let key := resolveApiKey c.apiKey o.userApiKey
  if key == "" then .error (.config "API key is required")
  else .ok
    { id := "chat-" ++ o.vaultId
      apiKey := key
      messages := o.messages
      vaultId := o.vaultId
      externalWalletAddress := jsOrStr o.externalWalletAddress ""
      slippageSettings := o.slippageSettings.getD defaultSlippage
      safeMode := o.safeMode != some false
      currentPath := jsCurrentPath o.currentPath
      attachments := [] }

/-- One HTTP exchange as seen by the client: the response status and the
decoded text of the successive reads of the body stream. -/
structure TransportResponse where
  ok : Bool
  status : Nat
  statusText : String
  reads : List String

/-- Behaviour of the injected fetch implementation for the single request
of one call: either a response or a rejected promise. -/
inductive TransportBehavior where
  | respond (resp : TransportResponse)
  | networkFail (msg : String)

/-- createRequest (client.ts lines 362 to 380): a network failure
propagates, a non-ok status throws an error carrying the status code and
status text, an ok response is returned. -/
def createRequestModel (t : TransportBehavior) : Except SdkError TransportResponse :=
  match t with
  | .networkFail m => .error (.network m)
  | .respond r => if r.ok then .ok r else .error (.http r.status r.statusText)

/-- Observable outcome of one rawStream iteration: the request bodies
handed to the transport (in order of invocation), the chunks yielded, and
the error terminating the iteration, if any. -/
structure StreamOutcome where
  requests : List HustleRequest
  chunks : List RawChunk
  thrown : Option SdkError

/-- rawStream (client.ts lines 249 to 325) without an override: build the
body (outside the try block, so a configuration error is thrown without
any chunk), invoke the transport once, then decode, split and classify;
on a transport error yield one error chunk and rethrow. -/
def rawStreamModel (c : ClientState) (o : StreamOptions) (t : TransportBehavior) : StreamOutcome :=
  match prepareRequestBody c o with
  | .error e => ⟨[], [], some e⟩
  | .ok body =>
    match createRequestModel t with
    | .error e => ⟨[body], [errorChunk e], some e⟩
    | .ok resp => ⟨[body], streamChunksOfReads resp.reads, none⟩

/-- A processed stream chunk (types.ts StreamChunk), one constructor per
type tag.  The errorEvent tag belongs to the declared union but is never
produced by chatStream. -/
inductive StreamChunk where
  | text (value : JVal)
  | toolCall (value : JVal)
  | toolResult (value : JVal)
  | messageId (value : JVal)
  | finish (value : JVal)
  | pathInfo (value : JVal)
  | unknown (value : RawChunk)
  | errorEvent (value : JVal)

/-- The finish value built for an e or d chunk (client.ts lines 213 to
219): reason is data.finishReason or-else the string stop, usage is
data.usage (undefined when absent). -/
def finishValue (d : JVal) : JVal :=
  let fr := jsGet d "finishReason"
  JVal.obj [("reason", if jvTruthy fr then fr else JVal.str "stop"),
            ("usage", jsGet d "usage")]

/-- The prefix switch of chatStream in processed mode (client.ts lines
190 to 237): zero or one StreamChunk per RawChunk. -/
def processRaw (c : RawChunk) : List StreamChunk :=
  if c.pfx == "0" then [.text c.data]
  else if c.pfx == "9" then [.toolCall c.data]
  else if c.pfx == "a" then [.toolResult c.data]
  else if c.pfx == "f" then
    if jvTruthy c.data && isObjType c.data && hasKey c.data "messageId" then
      [.messageId (jsGet c.data "messageId")]
    else []
  else if c.pfx == "e" || c.pfx == "d" then [.finish (finishValue c.data)]
  else if c.pfx == "2" then
    match c.data with
    | .arr (x :: _) => [.pathInfo x]
    | _ => [.pathInfo c.data]
  else [.unknown c]

/-- Processing of the whole raw chunk sequence, in arrival order. -/
def streamProcess : List RawChunk → List StreamChunk
  | [] => []
  | c :: rest => processRaw c ++ streamProcess rest

mutual

/-- JavaScript Array.prototype.toString on parsed values: elements joined
by commas, with null and undefined elements rendered empty. -/
def jsArrString : List JVal → String
  | [] => ""
  | x :: xs =>
    jsElem x ++ (match xs with | [] => "" | _ :: _ => "," ++ jsArrString xs)

/-- One array element under Array.prototype.toString. -/
def jsElem : JVal → String
  | .null => ""
  | .undefined => ""
  | .bool true => "true"
  | .bool false => "false"
  | .num q => if q.den = 1 then toString q.num else toString q
  | .str s => s
  | .arr xs => jsArrString xs
  | .obj _ => "[object Object]"

end

/-- JavaScript string coercion of a value, as applied by the += in the
chat aggregation loop (client.ts line 125).  Rendering of non-integral
numbers approximates host float formatting; no claim exercises it. -/
def jsToString : JVal → String
  | .undefined => "undefined"
  | .null => "null"
  | .bool true => "true"
  | .bool false => "false"
  | .num q => if q.den = 1 then toString q.num else toString q
  | .str s => s
  | .arr xs => jsArrString xs
  | .obj _ => "[object Object]"

/-- The aggregate assembled by chat (types.ts ProcessedResponse); the
nullable fields start as null. -/
structure ProcessedResponse where
  content : String
  messageId : JVal
  usage : JVal
  pathInfo : JVal
  toolCalls : List JVal
  toolResults : List JVal

/-- The initial accumulator of the chat aggregation loop (client.ts lines
106 to 111). -/
def emptyResponse : ProcessedResponse :=
  ⟨"", JVal.null, JVal.null, JVal.null, [], []⟩

/-- One step of the chat aggregation switch (client.ts lines 122 to 145):
text appends to content, message_id and path_info overwrite, finish
overwrites usage when its value is a truthy object carrying a usage key,
tool_call and tool_result append; every other tag is ignored. -/
def aggStep (s : ProcessedResponse) (c : StreamChunk) : ProcessedResponse :=
  match c with
  | .text v => { s with content := s.content ++ jsToString v }
  | .messageId v => { s with messageId := v }
  | .finish v =>
    if jvTruthy v && isObjType v && hasKey v "usage" then
      { s with usage := jsGet v "usage" }
    else s
  | .pathInfo v => { s with pathInfo := v }
  | .toolCall v => { s with toolCalls := s.toolCalls ++ [v] }
  | .toolResult v => { s with toolResults := s.toolResults ++ [v] }
  | _ => s

/-- The full aggregation fold of chat over a terminated chunk sequence. -/
def aggregate (cs : List StreamChunk) : ProcessedResponse :=
  cs.foldl aggStep emptyResponse

/-- Options accepted by chat (client.ts lines 68 to 75). -/
structure ChatOptions where
  vaultId : String
  userApiKey : Option String := none
  externalWalletAddress : Option String := none
  slippageSettings : Option (List (String × Rat)) := none
  safeMode : Option Bool := none
  rawResponse : Option Bool := none

/-- The default options value of the chat parameter list (client.ts line
75), applied when the argument is omitted. -/
def defaultChatOptions : ChatOptions :=
  { vaultId := "default" }

/-- The stream options chat passes down (client.ts lines 91 to 98 and 113
to 121); chat never forwards currentPath, and the processed path sets
processChunks. -/
def chatStreamOptionsOf (o : ChatOptions) (messages : List ChatMessage)
    (processed : Bool) : StreamOptions :=
  { vaultId := o.vaultId
    messages := messages
    userApiKey := o.userApiKey
    externalWalletAddress := o.externalWalletAddress
    slippageSettings := o.slippageSettings
    safeMode := o.safeMode
    processChunks := if processed then some true else none }

/-- What one chat call returns on success: the aggregate, or the raw
chunk collection in rawResponse mode. -/
inductive ChatOutput where
  | processed (r : ProcessedResponse)
  | rawChunks (cs : List RawChunk)

/-- Observable outcome of one chat call: the request bodies handed to the
transport and the settled result. -/
structure ChatOutcome where
  requests : List HustleRequest
  result : Except SdkError ChatOutput

/-- Items yielded by chatStream, whose declared element type is the union
of StreamChunk and RawChunk. -/
inductive StreamItem where
  | sc (c : StreamChunk)
  | rc (c : RawChunk)

/-- chatStream (client.ts lines 165 to 239) without an override: raw
passthrough when processChunks is exactly false, otherwise the processed
mapping of the raw sequence; an error terminating rawStream propagates. -/
def chatStreamModel (c : ClientState) (o : StreamOptions) (t : TransportBehavior) :
    List StreamItem × Option SdkError :=
  let out := rawStreamModel c o t
  if o.processChunks == some false then (out.chunks.map .rc, out.thrown)
  else ((streamProcess out.chunks).map .sc, out.thrown)

/-- chat (client.ts lines 66 to 156) without an override: default the
options parameter, collect raw chunks in rawResponse mode, otherwise fold
the processed stream into a ProcessedResponse; an error terminating the
stream rejects the call and no partial aggregate is returned. -/
def chatModel (c : ClientState) (messages : List ChatMessage)
    (options : Option ChatOptions) (t : TransportBehavior) : ChatOutcome :=
  let o := options.getD defaultChatOptions
  if o.rawResponse == some true then
    let out := rawStreamModel c (chatStreamOptionsOf o messages false) t
    ⟨out.requests,
      match out.thrown with
      | some e => .error e
      | none => .ok (.rawChunks out.chunks)⟩
  else
    let out := rawStreamModel c (chatStreamOptionsOf o messages true) t
    ⟨out.requests,
      match out.thrown with
      | some e => .error e
      | none => .ok (.processed (aggregate (streamProcess out.chunks)))⟩

/-- Spec-side selector for claim C3: the string values of the text
chunks, in order. -/
def textStrings : List StreamChunk → List String
  | [] => []
  | .text (JVal.str s) :: rest => s :: textStrings rest
  | _ :: rest => textStrings rest

/-- The string coercions of all text chunk values, in order. -/
def textPieces : List StreamChunk → List String
  | [] => []
  | .text v :: rest => jsToString v :: textPieces rest
  | _ :: rest => textPieces rest

/-- Concatenation of a list of strings, in order. -/
def concatAll : List String → String
  | [] => ""
  | s :: rest => s ++ concatAll rest

/-- Spec-side selector for claim C3: message_id values, in order. -/
def msgIdValues : List StreamChunk → List JVal
  | [] => []
  | .messageId v :: rest => v :: msgIdValues rest
  | _ :: rest => msgIdValues rest

/-- Spec-side selector for claim C3: the usage fields of the finish
chunks whose value carries a usage key, in order. -/
def usageValues : List StreamChunk → List JVal
  | [] => []
  | .finish v :: rest =>
    if hasKey v "usage" then jsGet v "usage" :: usageValues rest
    else usageValues rest
  | _ :: rest => usageValues rest

/-- Spec-side selector for claim C3: path_info values, in order. -/
def pathInfoValues : List StreamChunk → List JVal
  | [] => []
  | .pathInfo v :: rest => v :: pathInfoValues rest
  | _ :: rest => pathInfoValues rest

/-- Spec-side selector for claim C3: tool_call values, in order. -/
def toolCallValues : List StreamChunk → List JVal
  | [] => []
  | .toolCall v :: rest => v :: toolCallValues rest
  | _ :: rest => toolCallValues rest

/-- Spec-side selector for claim C3: tool_result values, in order. -/
def toolResultValues : List StreamChunk → List JVal
  | [] => []
  | .toolResult v :: rest => v :: toolResultValues rest
  | _ :: rest => toolResultValues rest

/-- The last element of a list, or the default when it is empty: the
last-write-wins combinator of claim C3. -/
def lastOr : List JVal → JVal → JVal
  | [], dflt => dflt
  | x :: rest, _ => lastOr rest x

/-- The request body prepareRequestBody returns when the key resolves. -/
def builtRequest (c : ClientState) (o : StreamOptions) : HustleRequest :=
  { id := "chat-" ++ o.vaultId
    apiKey := resolveApiKey c.apiKey o.userApiKey
    messages := o.messages
    vaultId := o.vaultId
    externalWalletAddress := jsOrStr o.externalWalletAddress ""
    slippageSettings := o.slippageSettings.getD defaultSlippage
    safeMode := o.safeMode != some false
    currentPath := jsCurrentPath o.currentPath
    attachments := [] }

/-- A client state whose key is empty, as used to exercise the request
time configuration check. -/
def emptyKeyClient : ClientState :=
  { apiKey := "", baseUrl := PRODUCTION_URL }

/-- Client and options fixtures used by concrete witness instances. -/
def sampleClient : ClientState :=
  { apiKey := "k", baseUrl := PRODUCTION_URL }

/-- Stream options fixture used by concrete witness instances. -/
def sampleOptions : StreamOptions :=
  { vaultId := "v1", messages := [] }

/-- Members of a filtered line list are non-blank. -/
theorem mem_linesOf {l text : String} (h : l ∈ linesOf text) : isBlank l = false := by
  have := List.of_mem_filter h
  simpa using this

/-- Claim C1, amended: the line decoding stage of rawStream splits each
read chunk on newlines independently of the other reads and drops
whitespace-only segments, so the emitted lines are the concatenation,
over the reads in arrival order, of each read's non-blank
newline-separated segments, and every emitted line is non-blank.  No
tail fragment is buffered across reads, so a source line split across
two reads is emitted as separate fragments and the emitted line
sequence depends on the read-chunk boundaries. -/
theorem c1_line_decoding (reads : List String) :
    streamLines reads = (reads.map linesOf).flatten ∧
    ∀ l ∈ streamLines reads, isBlank l = false := by
  constructor
  · induction reads with
    | nil => rfl
    | cons t rest ih => simp [streamLines, ih]
  · induction reads with
    | nil => intro l h; simp [streamLines] at h
    | cons t rest ih =>
      intro l h
      simp only [streamLines] at h
      rcases List.mem_append.mp h with h1 | h2
      · exact mem_linesOf h1
      · exact ih l h2

/-- Claim C1, counterexample: the byte stream of the single line 0:ab,
delivered either as one read or split in the middle of the line across
two reads, yields different emitted line sequences, so the emitted lines
are not independent of the read-chunk boundaries and the fragment 0:a of
the source line is emitted as a line of its own. -/
theorem c1_counterexample :
    "0:a" ++ "b" = "0:ab" ∧
    streamLines ["0:a", "b"] = ["0:a", "b"] ∧
    streamLines ["0:ab"] = ["0:ab"] ∧
    streamLines ["0:a", "b"] ≠ streamLines ["0:ab"] :=
  ⟨rfl, by decide, by decide, by decide⟩

/-- Witness for c1_line_decoding at a concrete two-line read containing a
whitespace-only segment. -/
theorem c1_line_decoding_witness :
    streamLines ["0:x\n \ny"] = (["0:x\n \ny"].map linesOf).flatten ∧
    isBlank "0:x" = false :=
  ⟨(c1_line_decoding ["0:x\n \ny"]).1,
   (c1_line_decoding ["0:x\n \ny"]).2 "0:x" (by decide)⟩

/-- The classifier invariant of one line: raw is the line, the prefix is
the character at index 0, and data is the parse of the payload substring
when valid JSON, the verbatim substring otherwise. -/
theorem classifyLine_spec (line : String) :
    (classifyLine line).raw = line ∧ (classifyLine line).pfx = charAt line 0 ∧
    ((∃ v, jsonParse (substringFrom line 2) = some v ∧ (classifyLine line).data = v) ∨
     (jsonParse (substringFrom line 2) = none ∧
       (classifyLine line).data = JVal.str (substringFrom line 2))) := by
  cases h : jsonParse (substringFrom line 2) with
  | none => simp [classifyLine, h]
  | some v => simp [classifyLine, h]

/-- Claim C4, confirmed: for every non-blank input line, classification
takes the first character as the prefix and the substring from index 2
onward as the payload; when that substring is valid JSON the data field
equals its parsed value, otherwise the unparsed substring verbatim; the
classifier is a total function that never drops the line, and the raw
field is the original input line unmodified. -/
theorem c4_classifier (line : String) (hb : isBlank line = false) :
    (classifyLine line).raw = line ∧
    (classifyLine line).pfx = charAt line 0 ∧
    (∀ v, jsonParse (substringFrom line 2) = some v → (classifyLine line).data = v) ∧
    (jsonParse (substringFrom line 2) = none →
        (classifyLine line).data = JVal.str (substringFrom line 2)) ∧
    classifyLines [line] = [classifyLine line] := by
  refine ⟨(classifyLine_spec line).1, (classifyLine_spec line).2.1, ?_, ?_, ?_⟩
  · intro v hv; simp [classifyLine, hv]
  · intro hn; simp [classifyLine, hn]
  · simp [classifyLines, hb]

/-- Witness for c4_classifier at the line 0:true (valid JSON payload) and
at the same conclusions with the invalid payload checked separately. -/
theorem c4_classifier_witness :
    isBlank "0:true" = false ∧
    (classifyLine "0:true").raw = "0:true" ∧
    (classifyLine "0:true").pfx = "0" ∧
    (classifyLine "0:true").data = JVal.bool true := by
  have h := c4_classifier "0:true" (by decide)
  exact ⟨by decide, h.1, h.2.1, h.2.2.1 (JVal.bool true) rfl⟩

/-- Every chunk produced by the classify loop comes from a non-blank
line of its input. -/
theorem mem_classifyLines {rc : RawChunk} :
    ∀ {ls : List String}, rc ∈ classifyLines ls →
      ∃ l, l ∈ ls ∧ isBlank l = false ∧ rc = classifyLine l := by
  intro ls
  induction ls with
  | nil => intro h; simp [classifyLines] at h
  | cons l rest ih =>
    intro h
    simp only [classifyLines] at h
    by_cases hb : isBlank l = false
    · rw [hb] at h
      simp only [Bool.not_false, if_true] at h
      rcases List.mem_cons.mp h with h1 | h2
      · exact ⟨l, List.mem_cons_self l rest, hb, h1⟩
      · obtain ⟨l2, hl2, hnb, heq⟩ := ih h2
        exact ⟨l2, List.mem_cons_of_mem _ hl2, hnb, heq⟩
    · have hb2 : isBlank l = true := by
        cases hbl : isBlank l
        · exact absurd hbl hb
        · rfl
      rw [hb2] at h
      simp only [Bool.not_true, if_false] at h
      obtain ⟨l2, hl2, hnb, heq⟩ := ih h
      exact ⟨l2, List.mem_cons_of_mem _ hl2, hnb, heq⟩

/-- Every chunk produced by the read loop on an ok response comes from a
non-blank line. -/
theorem mem_streamChunksOfReads {rc : RawChunk} :
    ∀ {reads : List String}, rc ∈ streamChunksOfReads reads →
      ∃ l, isBlank l = false ∧ rc = classifyLine l := by
  intro reads
  induction reads with
  | nil => intro h; simp [streamChunksOfReads] at h
  | cons t rest ih =>
    intro h
    simp only [streamChunksOfReads] at h
    rcases List.mem_append.mp h with h1 | h2
    · obtain ⟨l, _, hnb, heq⟩ := mem_classifyLines h1
      exact ⟨l, hnb, heq⟩
    · exact ih h2

/-- Claim C5, amended: every RawChunk yielded by rawStream from a decoded
stream line satisfies the invariant: its prefix is exactly the first
character of its source line, its raw field is that original line, and
its data is the JSON parse of everything after the first separator
character when that substring is valid JSON, the raw substring unchanged
otherwise.  On the transport-failure path, however, the single yielded
chunk instead carries the literal five-character prefix error, with data
and raw both the stringified error. -/
theorem c5_chunk_invariant (c : ClientState) (o : StreamOptions) (t : TransportBehavior) :
    ∀ rc ∈ (rawStreamModel c o t).chunks,
      (∃ l, isBlank l = false ∧ rc = classifyLine l ∧ rc.raw = l ∧ rc.pfx = charAt l 0 ∧
        ((∃ v, jsonParse (substringFrom l 2) = some v ∧ rc.data = v) ∨
         (jsonParse (substringFrom l 2) = none ∧
           rc.data = JVal.str (substringFrom l 2)))) ∨
      (∃ e, rc = errorChunk e ∧ rc.pfx = "error") := by
  intro rc hm
  unfold rawStreamModel at hm
  cases hpre : prepareRequestBody c o with
  | error e => rw [hpre] at hm; simp at hm
  | ok body =>
    rw [hpre] at hm
    cases hreq : createRequestModel t with
    | error e =>
      rw [hreq] at hm
      simp at hm
      right
      exact ⟨e, hm, by rw [hm]; rfl⟩
    | ok resp =>
      rw [hreq] at hm
      simp at hm
      obtain ⟨l, hnb, heq⟩ := mem_streamChunksOfReads hm
      left
      refine ⟨l, hnb, heq, ?_, ?_, ?_⟩
      · rw [heq]; exact (classifyLine_spec l).1
      · rw [heq]; exact (classifyLine_spec l).2.1
      · rw [heq]; exact (classifyLine_spec l).2.2

/-- Claim C5, counterexample: on an HTTP 401 response the iteration
yields a chunk whose prefix is the five-character string error, which is
not a single character and not the first character of any source line,
refuting the invariant on the failure path. -/
theorem c5_counterexample :
    (rawStreamModel sampleClient sampleOptions
        (.respond ⟨false, 401, "Unauthorized", []⟩)).chunks =
      [⟨"error", JVal.str "Error: HTTP error: 401 Unauthorized",
        "Error: HTTP error: 401 Unauthorized"⟩] ∧
    ("error" : String).length ≠ 1 :=
  ⟨rfl, by decide⟩

/-- Witness for c5_chunk_invariant at a concrete successful exchange with
one text line. -/
theorem c5_chunk_invariant_witness :
    (∃ l, isBlank l = false ∧ classifyLine "0:hi" = classifyLine l ∧
      (classifyLine "0:hi").raw = l ∧ (classifyLine "0:hi").pfx = charAt l 0 ∧
      ((∃ v, jsonParse (substringFrom l 2) = some v ∧ (classifyLine "0:hi").data = v) ∨
       (jsonParse (substringFrom l 2) = none ∧
         (classifyLine "0:hi").data = JVal.str (substringFrom l 2)))) ∨
    (∃ e, classifyLine "0:hi" = errorChunk e ∧ (classifyLine "0:hi").pfx = "error") :=
  c5_chunk_invariant sampleClient sampleOptions
    (.respond ⟨true, 200, "OK", ["0:hi"]⟩) (classifyLine "0:hi")
    (by rw [show (rawStreamModel sampleClient sampleOptions
          (.respond ⟨true, 200, "OK", ["0:hi"]⟩)).chunks = [classifyLine "0:hi"] from rfl]
        exact List.mem_singleton_self _)

/-- The guard of the f and finish cases: conjoining truthiness and the
typeof object test with key membership is equivalent to key membership
alone, since only object records carry keys. -/
theorem truthyObjGuard (d : JVal) (k : String) :
    (jvTruthy d && isObjType d && hasKey d k) = hasKey d k := by
  cases d <;> simp [jvTruthy, isObjType, hasKey]

/-- Processing a raw chunk sequence is the ordered concatenation of the
per-chunk processing results. -/
theorem streamProcess_eq (rcs : List RawChunk) :
    streamProcess rcs = (rcs.map processRaw).flatten := by
  induction rcs with
  | nil => rfl
  | cons c rest ih => simp [streamProcess, ih]

/-- Claim C2, amended: chatStream in processed mode emits StreamChunks
1:1 in order per the prefix table: 0 text, 9 tool_call, a tool_result
with data as-is; f message_id with data.messageId when data is an object
containing that field and nothing otherwise; e and d finish with reason
data.finishReason when that field holds a truthy value and the string
stop otherwise (in particular also when finishReason is present but
empty, zero, false or null), and usage data.usage; 2 path_info with the
first element of a non-empty array and data itself otherwise; any other
prefix unknown wrapping the whole RawChunk. -/
theorem c2_chunk_processing (d : JVal) (rawl : String) (p : String)
    (hp : p ≠ "0" ∧ p ≠ "9" ∧ p ≠ "a" ∧ p ≠ "f" ∧ p ≠ "e" ∧ p ≠ "d" ∧ p ≠ "2") :
    processRaw ⟨"0", d, rawl⟩ = [.text d] ∧
    processRaw ⟨"9", d, rawl⟩ = [.toolCall d] ∧
    processRaw ⟨"a", d, rawl⟩ = [.toolResult d] ∧
    processRaw ⟨"f", d, rawl⟩ =
      (if hasKey d "messageId" then [.messageId (jsGet d "messageId")] else []) ∧
    processRaw ⟨"e", d, rawl⟩ =
      [.finish (JVal.obj [("reason",
          if jvTruthy (jsGet d "finishReason") then jsGet d "finishReason"
          else JVal.str "stop"),
        ("usage", jsGet d "usage")])] ∧
    processRaw ⟨"d", d, rawl⟩ =
      [.finish (JVal.obj [("reason",
          if jvTruthy (jsGet d "finishReason") then jsGet d "finishReason"
          else JVal.str "stop"),
        ("usage", jsGet d "usage")])] ∧
    processRaw ⟨"2", d, rawl⟩ =
      (match d with
       | .arr (x :: _) => [.pathInfo x]
       | _ => [.pathInfo d]) ∧
    processRaw ⟨p, d, rawl⟩ = [.unknown ⟨p, d, rawl⟩] ∧
    (∀ rcs : List RawChunk, streamProcess rcs = (rcs.map processRaw).flatten) := by
  obtain ⟨h0, h9, ha, hf, he, hd, h2⟩ := hp
  refine ⟨rfl, rfl, rfl, ?_, rfl, rfl, rfl, ?_, streamProcess_eq⟩
  · show (if jvTruthy d && isObjType d && hasKey d "messageId" then
        [StreamChunk.messageId (jsGet d "messageId")] else []) = _
    rw [truthyObjGuard]
  · simp [processRaw, h0, h9, ha, hf, he, hd, h2]

/-- Claim C2, counterexample: a completion line whose data carries a
present but empty finishReason is mapped to reason stop, not to the
present value, refuting the or-stop-if-absent reading. -/
theorem c2_counterexample :
    processRaw ⟨"e", JVal.obj [("finishReason", JVal.str "")], "e:x"⟩ =
      [.finish (JVal.obj [("reason", JVal.str "stop"), ("usage", JVal.undefined)])] ∧
    ("stop" : String) ≠ "" :=
  ⟨rfl, by decide⟩

/-- Witness for c2_chunk_processing at concrete chunks with prefixes 0
and z. -/
theorem c2_chunk_processing_witness :
    processRaw ⟨"0", JVal.str "hi", "0:hi"⟩ = [.text (JVal.str "hi")] ∧
    processRaw ⟨"z", JVal.str "hi", "z:hi"⟩ =
      [.unknown ⟨"z", JVal.str "hi", "z:hi"⟩] := by
  have h1 := c2_chunk_processing (JVal.str "hi") "0:hi" "z"
    (by refine ⟨?_, ?_, ?_, ?_, ?_, ?_, ?_⟩ <;> decide)
  have h2 := c2_chunk_processing (JVal.str "hi") "z:hi" "z"
    (by refine ⟨?_, ?_, ?_, ?_, ?_, ?_, ?_⟩ <;> decide)
  exact ⟨h1.1, h2.2.2.2.2.2.2.2.1⟩

/-- The aggregation fold from an arbitrary accumulator, componentwise:
content accumulates the coerced text values, message id, usage and path
info keep the last written value, tool calls and results append. -/
theorem foldl_aggStep (cs : List StreamChunk) : ∀ s : ProcessedResponse,
    cs.foldl aggStep s =
      ⟨s.content ++ concatAll (textPieces cs),
       lastOr (msgIdValues cs) s.messageId,
       lastOr (usageValues cs) s.usage,
       lastOr (pathInfoValues cs) s.pathInfo,
       s.toolCalls ++ toolCallValues cs,
       s.toolResults ++ toolResultValues cs⟩ := by
  induction cs with
  | nil =>
    intro s
    simp [textPieces, msgIdValues, usageValues, pathInfoValues, toolCallValues,
      toolResultValues, concatAll, lastOr, String.append_empty]
  | cons c rest ih =>
    intro s
    rw [List.foldl_cons, ih]
    cases c with
    | text v =>
      simp [aggStep, textPieces, msgIdValues, usageValues, pathInfoValues,
        toolCallValues, toolResultValues, concatAll, String.append_assoc]
    | toolCall v =>
      simp [aggStep, textPieces, msgIdValues, usageValues, pathInfoValues,
        toolCallValues, toolResultValues]
    | toolResult v =>
      simp [aggStep, textPieces, msgIdValues, usageValues, pathInfoValues,
        toolCallValues, toolResultValues]
    | messageId v =>
      simp [aggStep, textPieces, msgIdValues, usageValues, pathInfoValues,
        toolCallValues, toolResultValues, lastOr]
    | finish v =>
      rw [show aggStep s (StreamChunk.finish v) =
        (if hasKey v "usage" then { s with usage := jsGet v "usage" } else s) from by
          rw [aggStep, truthyObjGuard]]
      by_cases hk : hasKey v "usage" = true
      · simp [hk, textPieces, msgIdValues, usageValues, pathInfoValues,
          toolCallValues, toolResultValues, lastOr]
      · simp [hk, textPieces, msgIdValues, usageValues, pathInfoValues,
          toolCallValues, toolResultValues]
    | pathInfo v =>
      simp [aggStep, textPieces, msgIdValues, usageValues, pathInfoValues,
        toolCallValues, toolResultValues, lastOr]
    | unknown v =>
      simp [aggStep, textPieces, msgIdValues, usageValues, pathInfoValues,
        toolCallValues, toolResultValues]
    | errorEvent v =>
      simp [aggStep, textPieces, msgIdValues, usageValues, pathInfoValues,
        toolCallValues, toolResultValues]

/-- When every text value is a string, coercion is the identity on the
text pieces. -/
theorem textPieces_eq_textStrings (cs : List StreamChunk)
    (h : ∀ v, StreamChunk.text v ∈ cs → ∃ s, v = JVal.str s) :
    textPieces cs = textStrings cs := by
  induction cs with
  | nil => rfl
  | cons c rest ih =>
    have hrest : ∀ v, StreamChunk.text v ∈ rest → ∃ s, v = JVal.str s :=
      fun v hv => h v (List.mem_cons_of_mem _ hv)
    cases c with
    | text v =>
      obtain ⟨s, hs⟩ := h v (List.mem_cons_self _ _)
      subst hs
      simp [textPieces, textStrings, List.filterMap_cons, ih hrest, jsToString]
    | toolCall v => simp [textPieces, textStrings, List.filterMap_cons, ih hrest]
    | toolResult v => simp [textPieces, textStrings, List.filterMap_cons, ih hrest]
    | messageId v => simp [textPieces, textStrings, List.filterMap_cons, ih hrest]
    | finish v => simp [textPieces, textStrings, List.filterMap_cons, ih hrest]
    | pathInfo v => simp [textPieces, textStrings, List.filterMap_cons, ih hrest]
    | unknown v => simp [textPieces, textStrings, List.filterMap_cons, ih hrest]
    | errorEvent v => simp [textPieces, textStrings, List.filterMap_cons, ih hrest]

/-- Claim C3, confirmed: the aggregation fold of chat maps a terminating
chunk sequence whose text values are strings to the ProcessedResponse
whose content is the ordered concatenation of the text values, whose
messageId, usage and pathInfo are the last written values (null when
none was written, usage being written by exactly the finish chunks whose
value carries a usage field), and whose toolCalls and toolResults are
the tool_call and tool_result values in arrival order; unknown and
errorEvent chunks contribute nothing, and the empty sequence yields the
all-empty response. -/
theorem c3_aggregation (cs : List StreamChunk)
    (h : ∀ v, StreamChunk.text v ∈ cs → ∃ s, v = JVal.str s) :
    aggregate cs =
      ⟨concatAll (textStrings cs),
       lastOr (msgIdValues cs) JVal.null,
       lastOr (usageValues cs) JVal.null,
       lastOr (pathInfoValues cs) JVal.null,
       toolCallValues cs,
       toolResultValues cs⟩ ∧
    aggregate [] = ⟨"", JVal.null, JVal.null, JVal.null, [], []⟩ := by
  constructor
  · rw [aggregate, foldl_aggStep, textPieces_eq_textStrings cs h]
    simp [emptyResponse, String.empty_append]
  · rfl

/-- Witness for c3_aggregation at the scenario of two text deltas, a
message id and a finish with usage. -/
theorem c3_aggregation_witness :
    aggregate [StreamChunk.text (JVal.str "Hello "), StreamChunk.text (JVal.str "world!"),
      StreamChunk.messageId (JVal.str "m1"),
      StreamChunk.finish (JVal.obj [("reason", JVal.str "stop"), ("usage", JVal.str "u")])] =
      ⟨"Hello world!", JVal.str "m1", JVal.str "u", JVal.null, [], []⟩ := by
  have h := (c3_aggregation [StreamChunk.text (JVal.str "Hello "),
      StreamChunk.text (JVal.str "world!"),
      StreamChunk.messageId (JVal.str "m1"),
      StreamChunk.finish (JVal.obj [("reason", JVal.str "stop"), ("usage", JVal.str "u")])]
    (by intro v hv
        simp only [List.mem_cons, List.not_mem_nil, or_false] at hv
        rcases hv with h1 | h1 | h1 | h1
        · injection h1 with h2; exact ⟨"Hello ", h2⟩
        · injection h1 with h2; exact ⟨"world!", h2⟩
        · simp at h1
        · simp at h1)).1
  exact h.trans rfl

/-- prepareRequestBody succeeds with the built request body whenever the
key resolution is non-empty. -/
theorem prepareRequestBody_ok (c : ClientState) (o : StreamOptions)
    (hk : resolveApiKey c.apiKey o.userApiKey ≠ "") :
    prepareRequestBody c o = .ok (builtRequest c o) := by
  have hkey : (resolveApiKey c.apiKey o.userApiKey == "") = false :=
    beq_eq_false_iff_ne.mpr hk
  simp [prepareRequestBody, builtRequest, hkey]

/-- On a transport error the stream yields one error chunk after the
single request and terminates by rethrowing the error. -/
theorem rawStream_transport_error (c : ClientState) (o : StreamOptions)
    (t : TransportBehavior) (body : HustleRequest) (e : SdkError)
    (hb : prepareRequestBody c o = .ok body)
    (he : createRequestModel t = .error e) :
    rawStreamModel c o t = ⟨[body], [errorChunk e], some e⟩ := by
  simp [rawStreamModel, hb, he]

/-- Claim C6, confirmed: on a non-success HTTP status or a failed network
call, the streaming iteration first yields one error-classified chunk and
then terminates by throwing the error carrying the status code and status
text; the aggregating chat entry point consequently rejects with that
error, returns no partial ProcessedResponse, and hands the transport at
most one request, so no retry is attempted. -/
theorem c6_transport_error :
    (∀ (c : ClientState) (o : StreamOptions) (t : TransportBehavior)
        (body : HustleRequest) (e : SdkError),
        prepareRequestBody c o = .ok body → createRequestModel t = .error e →
        rawStreamModel c o t = ⟨[body], [errorChunk e], some e⟩) ∧
    (∀ r : TransportResponse, r.ok = false →
        createRequestModel (.respond r) = .error (.http r.status r.statusText)) ∧
    (∀ m : String, createRequestModel (.networkFail m) = .error (.network m)) ∧
    (∀ (c : ClientState) (msgs : List ChatMessage) (o : Option ChatOptions)
        (r : TransportResponse),
        r.ok = false →
        resolveApiKey c.apiKey (o.getD defaultChatOptions).userApiKey ≠ "" →
        (chatModel c msgs o (.respond r)).result =
          .error (.http r.status r.statusText) ∧
        (chatModel c msgs o (.respond r)).requests.length ≤ 1) := by
  refine ⟨rawStream_transport_error, ?_, ?_, ?_⟩
  · intro r hr; simp [createRequestModel, hr]
  · intro m; rfl
  · intro c msgs o r hr hk
    have hreq : createRequestModel (.respond r) = .error (.http r.status r.statusText) := by
      simp [createRequestModel, hr]
    by_cases hrr : ((o.getD defaultChatOptions).rawResponse == some true) = true
    · have hb := prepareRequestBody_ok c
        (chatStreamOptionsOf (o.getD defaultChatOptions) msgs false) hk
      have hraw := rawStream_transport_error c _ _ _ _ hb hreq
      simp [chatModel, hrr, hraw]
    · have hb := prepareRequestBody_ok c
        (chatStreamOptionsOf (o.getD defaultChatOptions) msgs true) hk
      have hraw := rawStream_transport_error c _ _ _ _ hb hreq
      simp [chatModel, hrr, hraw]

/-- Witness for c6_transport_error at an HTTP 401 response. -/
theorem c6_transport_error_witness :
    (chatModel sampleClient [] none (.respond ⟨false, 401, "Unauthorized", []⟩)).result =
      .error (.http 401 "Unauthorized") ∧
    (chatModel sampleClient [] none
      (.respond ⟨false, 401, "Unauthorized", []⟩)).requests.length ≤ 1 :=
  c6_transport_error.2.2.2 sampleClient [] none ⟨false, 401, "Unauthorized", []⟩
    rfl (by decide)

/-- Claim C7, amended: the built request body equals the record with
session id chat- followed by the vault id, the messages unchanged, the
per-call userApiKey when present and non-empty and the client key
otherwise, the given wallet address or the empty string, the given
slippage settings or the defaults of five, safeMode true unless
explicitly false, the given currentPath when present and non-empty and
null otherwise, and empty attachments; the builder is a pure function,
so two runs on identical inputs give identical bodies. -/
theorem c7_request_builder (c : ClientState) (o : StreamOptions)
    (hk : resolveApiKey c.apiKey o.userApiKey ≠ "") :
    prepareRequestBody c o = .ok
      { id := "chat-" ++ o.vaultId
        apiKey := resolveApiKey c.apiKey o.userApiKey
        messages := o.messages
        vaultId := o.vaultId
        externalWalletAddress := jsOrStr o.externalWalletAddress ""
        slippageSettings := o.slippageSettings.getD defaultSlippage
        safeMode := o.safeMode != some false
        currentPath := jsCurrentPath o.currentPath
        attachments := [] } ∧
    prepareRequestBody c o = prepareRequestBody c o :=
  ⟨prepareRequestBody_ok c o hk, rfl⟩

/-- Claim C7, counterexample: with a present but empty per-call
userApiKey the built body carries the client key k, not the present
per-call value, refuting the userApiKey-if-present reading. -/
theorem c7_counterexample :
    prepareRequestBody sampleClient
        { vaultId := "v1", messages := [], userApiKey := some "" } =
      .ok ⟨"chat-v1", "k", [], "v1", "", defaultSlippage, true, none, []⟩ ∧
    ("k" : String) ≠ "" :=
  ⟨rfl, by decide⟩

/-- Witness for c7_request_builder at the sample client and options. -/
theorem c7_request_builder_witness :
    prepareRequestBody sampleClient sampleOptions = .ok
      { id := "chat-" ++ sampleOptions.vaultId
        apiKey := resolveApiKey sampleClient.apiKey sampleOptions.userApiKey
        messages := sampleOptions.messages
        vaultId := sampleOptions.vaultId
        externalWalletAddress := jsOrStr sampleOptions.externalWalletAddress ""
        slippageSettings := sampleOptions.slippageSettings.getD defaultSlippage
        safeMode := sampleOptions.safeMode != some false
        currentPath := jsCurrentPath sampleOptions.currentPath
        attachments := [] } :=
  (c7_request_builder sampleClient sampleOptions (by decide)).1

/-- Claim C8, confirmed: a missing or empty apiKey makes the constructor
throw a configuration error immediately, and a request on which neither
the per-call key nor the client key resolves to a non-empty string
throws the configuration error with no chunk emitted and with the
transport never invoked. -/
theorem c8_missing_key :
    (∀ o : ClientOptions, o.apiKey = none ∨ o.apiKey = some "" →
        mkClient o = .error (.config "API key is required.")) ∧
    (∀ (c : ClientState) (o : StreamOptions) (t : TransportBehavior),
        resolveApiKey c.apiKey o.userApiKey = "" →
        rawStreamModel c o t = ⟨[], [], some (.config "API key is required")⟩) := by
  constructor
  · rintro o (h | h) <;> simp [mkClient, h]
  · intro c o t hk
    simp [rawStreamModel, prepareRequestBody, hk]

/-- Witness for c8_missing_key at a keyless constructor call and an
empty-key request. -/
theorem c8_missing_key_witness :
    mkClient { apiKey := none } = .error (.config "API key is required.") ∧
    rawStreamModel emptyKeyClient sampleOptions (.respond ⟨true, 200, "OK", []⟩) =
      ⟨[], [], some (.config "API key is required")⟩ :=
  ⟨c8_missing_key.1 { apiKey := none } (Or.inl rfl),
   c8_missing_key.2 emptyKeyClient sampleOptions _ (by decide)⟩

/-- Claim C9, confirmed: a line with prefix e or d whose payload is not a
JSON object (invalid JSON falling back to the raw payload string, or a
JSON scalar or array) is still processed into exactly one finish chunk,
with reason the string stop and usage undefined; a malformed completion
payload never suppresses the finish event. -/
theorem c9_malformed_finish (line : String)
    (hp : charAt line 0 = "e" ∨ charAt line 0 = "d")
    (hd : ∀ fs, jsonParse (substringFrom line 2) ≠ some (JVal.obj fs)) :
    processRaw (classifyLine line) =
      [.finish (JVal.obj [("reason", JVal.str "stop"), ("usage", JVal.undefined)])] := by
  have hdata : ∀ fs, (classifyLine line).data ≠ JVal.obj fs := by
    rcases (classifyLine_spec line).2.2 with ⟨v, hv, he⟩ | ⟨hn, he⟩
    · intro fs h; rw [he] at h; exact hd fs (h ▸ hv)
    · intro fs h; rw [he] at h; cases h
  have hget : ∀ k, jsGet (classifyLine line).data k = JVal.undefined := by
    intro k
    cases hc : (classifyLine line).data with
    | obj fields => exact absurd hc (hdata fields)
    | undefined => simp [jsGet]
    | null => simp [jsGet]
    | bool b => simp [jsGet]
    | num q => simp [jsGet]
    | str s => simp [jsGet]
    | arr xs => simp [jsGet]
  have hpfx := (classifyLine_spec line).2.1
  rcases hp with hp | hp <;>
    · rw [processRaw, hpfx, hp]
      simp [finishValue, hget, jvTruthy]

/-- Witness for c9_malformed_finish at the line e:oops with invalid JSON
payload. -/
theorem c9_malformed_finish_witness :
    processRaw (classifyLine "e:oops") =
      [.finish (JVal.obj [("reason", JVal.str "stop"), ("usage", JVal.undefined)])] :=
  c9_malformed_finish "e:oops" (Or.inl rfl)
    (by intro fs h
        rw [show jsonParse (substringFrom "e:oops" 2) = none from rfl] at h
        cases h)

/-- The requests handed to the transport whenever the body builds. -/
theorem rawStreamModel_requests_ok (c : ClientState) (o : StreamOptions)
    (t : TransportBehavior) (body : HustleRequest)
    (hb : prepareRequestBody c o = .ok body) :
    (rawStreamModel c o t).requests = [body] := by
  cases hcr : createRequestModel t with
  | error e => simp [rawStreamModel, hb, hcr]
  | ok resp => simp [rawStreamModel, hb, hcr]

/-- chat forwards the request list of the underlying rawStream call. -/
theorem chatModel_requests (c : ClientState) (msgs : List ChatMessage)
    (o : Option ChatOptions) (t : TransportBehavior) :
    (chatModel c msgs o t).requests =
      (rawStreamModel c
        (chatStreamOptionsOf (o.getD defaultChatOptions) msgs
          (!((o.getD defaultChatOptions).rawResponse == some true))) t).requests := by
  by_cases hrr : ((o.getD defaultChatOptions).rawResponse == some true) = true
  · simp [chatModel, hrr]
  · have hf : ((o.getD defaultChatOptions).rawResponse == some true) = false := by
      cases hx : ((o.getD defaultChatOptions).rawResponse == some true)
      · rfl
      · exact absurd hx hrr
    simp [chatModel, hf]

/-- Claim C10, confirmed: calling chat with the options argument omitted
defaults it to vaultId default, and the call proceeds to send exactly one
request carrying vaultId default and session id chat-default. -/
theorem c10_default_options (c : ClientState) (msgs : List ChatMessage)
    (t : TransportBehavior) (hk : c.apiKey ≠ "") :
    (chatModel c msgs none t).requests =
      [{ id := "chat-default"
         apiKey := c.apiKey
         messages := msgs
         vaultId := "default"
         externalWalletAddress := ""
         slippageSettings := defaultSlippage
         safeMode := true
         currentPath := none
         attachments := [] }] := by
  have hk2 : resolveApiKey c.apiKey
      (chatStreamOptionsOf ((none : Option ChatOptions).getD defaultChatOptions) msgs
        (!(((none : Option ChatOptions).getD defaultChatOptions).rawResponse ==
          some true))).userApiKey ≠ "" := hk
  rw [chatModel_requests,
    rawStreamModel_requests_ok c _ t _ (prepareRequestBody_ok c _ hk2)]
  rfl

/-- Witness for c10_default_options at the sample client. -/
theorem c10_default_options_witness :
    (chatModel sampleClient [] none (.respond ⟨true, 200, "OK", []⟩)).requests =
      [{ id := "chat-default"
         apiKey := sampleClient.apiKey
         messages := []
         vaultId := "default"
         externalWalletAddress := ""
         slippageSettings := defaultSlippage
         safeMode := true
         currentPath := none
         attachments := [] }] :=
  c10_default_options sampleClient [] (.respond ⟨true, 200, "OK", []⟩) (by decide)

end Hustle
